import Mathlib

/-!
Shallow embedding of the WASI socket wrapper library (src/lib.rs of
second-state/ssvm_wasm_socket).

The library translates a conventional TCP/UDP API (connect, bind, listen,
accept, read, recv_from, peer_addr, ...) into calls to host-provided socket
primitives (sock_open, sock_connect, sock_bind, sock_listen, sock_accept,
sock_recv, sock_recv_from, sock_getpeeraddr).  Every primitive takes an
opaque integer handle plus raw buffers and returns a numeric status code;
results are also written back through out-parameters.

Modelling conventions used throughout this file:
* a host primitive call is modelled by an oracle structure recording the
  status code the host returns and the values it writes through the call's
  out-parameters (fd, buffers, address family tag, port, lengths);
* Rust panics (`unwrap`, `todo!()` style aborts, out-of-range slicing,
  `expect` on CString/parse failures) are modelled by `Outcome.panic`;
* `std::io::Result` values are modelled by `Except IOError` (or the `ok` /
  `err` constructors of `Outcome` when a panic is also possible);
* machine-integer casts are explicit: the `port as u16` truncation in the
  source becomes `% 65536`;
* textual address handling (`to_string`, `split(':')`, `split('.')`,
  `parse::<u8>`, `parse::<u16>`) is embedded on `List Char` by the
  `renderNat` / `splitOnChar` / `parseU8` / `parseU16` functions below.
-/

namespace WasmSocket

/-- Errors surfaced by the library as `std::io::Error` values: the literal
"unsupported address type" error built in `peer_addr`, and
`std::io::Error::last_os_error()` carrying an OS error code. -/
inductive IOError where
  | unsupportedAddressType
  | lastOs (code : Nat)
  deriving DecidableEq

/-- Result of a library call that can also abort the process: `panic` models
a Rust panic (`unwrap` / `todo!()` / slice-index / `expect` failure), `ok`
models `Ok(_)` and `err` models `Err(_)`. -/
inductive Outcome (α : Type) where
  | panic
  | ok (val : α)
  | err (e : IOError)
  deriving DecidableEq

/-- Boolean discriminator for the panic constructor of `Outcome`. -/
def Outcome.isPanic {α : Type} : Outcome α → Bool
  | .panic => true
  | _ => false

/-- `TcpStream` from the source: wraps a single `SocketHandle(u32)`. -/
structure TcpStream where
  fd : Nat
  deriving DecidableEq

/-- Structured IPv4 payload: the four octets of `Ipv4Addr::new`. -/
structure Ipv4 where
  a : Nat
  b : Nat
  c : Nat
  d : Nat
  deriving DecidableEq

/-- Structured socket address, as rebuilt by `peer_addr`:
`SocketAddr::new(IpAddr::V4(..), port)`. -/
structure SockAddrV4 where
  ip : Ipv4
  port : Nat
  deriving DecidableEq

/-- `TcpListener` from the source: fd plus the raw address bytes and port
captured at bind time. -/
structure TcpListener where
  fd : Nat
  address : List Nat
  port : Nat
  deriving DecidableEq

/-- `UdpSocket` from the source: wraps a single handle. -/
structure UdpSocket where
  fd : Nat
  deriving DecidableEq

/-- `Incoming<'a>` from the source: a borrowing view over a listener. -/
structure Incoming where
  listener : TcpListener

/-! Textual digits: `u8`/`u16` decimal rendering (Rust `Display`) and
parsing (Rust `str::parse`), embedded on `List Char`. -/

/-- Decimal digit character, `'0' + n` for `n < 10`. -/
def digitCh (n : Nat) : Char := Char.ofNat (48 + n)

/-- Predicate: `c` is an ASCII decimal digit. -/
abbrev isDigitCh (c : Char) : Prop := 48 ≤ c.toNat ∧ c.toNat ≤ 57

/-- One step of Rust's unsigned-integer parser: `char::to_digit(10)`. -/
def parseDigit (c : Char) : Option Nat :=
  if 48 ≤ c.toNat ∧ c.toNat ≤ 57 then some (c.toNat - 48) else none

/-- Accumulating decimal parse; `none` on the first non-digit character,
as in Rust's `from_str_radix` digit loop. -/
def parseNatCore : List Char → Nat → Option Nat
  | [], acc => some acc
  | c :: cs, acc =>
    match parseDigit c with
    | some d => parseNatCore cs (acc * 10 + d)
    | none => none

/-- Rust's unsigned parser accepts one optional leading `'+'` sign. -/
def stripPlus (cs : List Char) : List Char :=
  match cs with
  | c :: rest => if c = '+' then rest else c :: rest
  | [] => []

/-- Embedding of `str::parse` for an unsigned integer: optional `'+'`,
then at least one digit, all characters digits. -/
def parseNatText (cs : List Char) : Option Nat :=
  match stripPlus cs with
  | [] => none
  | c :: rest => parseNatCore (c :: rest) 0

/-- `str::parse::<u8>`: unsigned decimal parse, error above 255 (Rust
reports overflow as a parse error). -/
def parseU8 (cs : List Char) : Option Nat :=
  match parseNatText cs with
  | some v => if v ≤ 255 then some v else none
  | none => none

/-- `str::parse::<u16>`: unsigned decimal parse, error above 65535. -/
def parseU16 (cs : List Char) : Option Nat :=
  match parseNatText cs with
  | some v => if v ≤ 65535 then some v else none
  | none => none

/-- Fuel-driven decimal rendering loop (most significant digit first once
the accumulator is flushed); mirrors the standard `Display` algorithm. -/
def renderNatAux : Nat → Nat → List Char → List Char
  | 0, _, acc => acc
  | fuel + 1, n, acc =>
    if n < 10 then digitCh n :: acc
    else renderNatAux fuel (n / 10) (digitCh (n % 10) :: acc)

/-- Decimal rendering of a natural number, as Rust's `Display` for
unsigned integers produces it. -/
def renderNat (n : Nat) : List Char := renderNatAux (n + 1) n []

/-- Number of decimal digits `renderNatAux` emits, with the same fuel
recursion pattern (proof bookkeeping for the round-trip lemma). -/
def numDigitsAux : Nat → Nat → Nat
  | 0, _ => 0
  | fuel + 1, n => if n < 10 then 1 else numDigitsAux fuel (n / 10) + 1

/-- Prepend a character onto the first group of a split result. -/
def consHead (c : Char) : List (List Char) → List (List Char)
  | [] => [[c]]
  | g :: gs => (c :: g) :: gs

/-- Embedding of Rust's `str::split(sep)` on character lists: splitting
never yields an empty group list; `n` separators yield `n + 1` groups. -/
def splitOnChar (sep : Char) : List Char → List (List Char)
  | [] => [[]]
  | c :: cs =>
    if c = sep then [] :: splitOnChar sep cs
    else consHead c (splitOnChar sep cs)

/-- Embedding of `addrp[0].split('.').map(|x| x.parse::<u8>().unwrap())`:
`none` models the `unwrap` panic on the first octet token that fails to
parse. -/
def mapUnwrapU8 : List (List Char) → Option (List Nat)
  | [] => some []
  | t :: ts =>
    match parseU8 t with
    | none => none
    | some v =>
      match mapUnwrapU8 ts with
      | none => none
      | some vs => some (v :: vs)

/-- Display form of an IPv4 address: `a.b.c.d` (Rust `Ipv4Addr` Display). -/
def Ipv4.toChars (ip : Ipv4) : List Char :=
  renderNat ip.a ++ ('.' :: (renderNat ip.b ++ ('.' :: (renderNat ip.c ++ ('.' :: renderNat ip.d)))))

/-- Display form of an IPv4 socket address: `a.b.c.d:port` (Rust
`SocketAddrV4` Display), the string `addrs.to_string()` produces in
`connect` / `bind`. -/
def SockAddrV4.toChars (sa : SockAddrV4) : List Char :=
  Ipv4.toChars sa.ip ++ (':' :: renderNat sa.port)

/-- Validity of a structured IPv4 socket address: octets fit in `u8` and
the port fits in `u16` (automatic for values coming from Rust's typed
`SocketAddrV4`). -/
abbrev SockAddrV4.valid (sa : SockAddrV4) : Prop :=
  sa.ip.a ≤ 255 ∧ sa.ip.b ≤ 255 ∧ sa.ip.c ≤ 255 ∧ sa.ip.d ≤ 255 ∧ sa.port ≤ 65535

/-- One resolved candidate address as `connect` / `bind` consume it: the
address family passed to `sock_open` (`Inet4 = 0`, `Inet6 = 1`) and the
textual form `addrs.to_string()` that the source then re-parses. -/
structure Candidate where
  family : Nat
  text : List Char

/-- Candidate built from a structured IPv4 socket address (family tag
`AddressFamily::Inet4 as u8 = 0`, text from `Display`). -/
def Candidate.ofV4 (sa : SockAddrV4) : Candidate :=
  ⟨0, SockAddrV4.toChars sa⟩

/-- Embedding of the textual address decomposition shared by `connect` and
`bind`: split the candidate string on `':'`, index groups 0 and 1 (a
missing group is an index panic), split group 0 on `'.'` and `unwrap`-parse
each octet as `u8`, `unwrap`-parse group 1 as `u16`.  `none` models any of
those panics. -/
def parseAddrText (text : List Char) : Option (List Nat × Nat) :=
  ((splitOnChar ':' text).get? 0).bind (fun a0 =>
    ((splitOnChar ':' text).get? 1).bind (fun a1 =>
      (mapUnwrapU8 (splitOnChar '.' a0)).bind (fun vaddr =>
        (parseU16 a1).map (fun port => (vaddr, port)))))

/-- Reconstruction of a structured address from the raw bytes the host
wrote back, exactly as `peer_addr` does it: require the family tag to be
the IPv4 sentinel 4 or fail with "unsupported address type"; otherwise
build the address from the first 4 buffer bytes and the returned `u32`
port truncated to `u16`. -/
def raw_to_address (raw : List Nat) (family : Nat) (port : Nat) :
    Except IOError SockAddrV4 :=
  if family ≠ 4 then Except.error IOError.unsupportedAddressType
  else Except.ok ⟨⟨raw.getD 0 0, raw.getD 1 0, raw.getD 2 0, raw.getD 3 0⟩, port % 65536⟩

/-! Host oracles and the stream-side operations. -/

/-- Host behaviour for one `sock_getpeeraddr` call. -/
structure PeerHost where
  /-- Return code of `sock_getpeeraddr`; the source discards it. -/
  status : Nat
  /-- Bytes the host writes through the 16-byte address buffer. -/
  wbuf : Nat → Nat
  /-- Value the host writes through the `addr_type` out-parameter. -/
  addrType : Nat
  /-- Value the host writes through the `port` out-parameter (`u32`). -/
  port : Nat

/-- `TcpStream::peer_addr`: invoke `sock_getpeeraddr` (status discarded),
read the first 4 bytes of the buffer, and rebuild the address with the
family-tag gate of `raw_to_address`. -/
def TcpStream.peer_addr (s : TcpStream) (h : PeerHost) : Except IOError SockAddrV4 :=
  raw_to_address [h.wbuf 0, h.wbuf 1, h.wbuf 2, h.wbuf 3] h.addrType h.port

/-- Host behaviour for the primitive calls made while `connect` processes
one candidate (only the first candidate is ever processed, see
`connectClosure`). -/
structure ConnectHost where
  /-- fd written by `sock_open` through its out-parameter. -/
  openFd : Nat
  /-- Return code of `sock_connect`; the source discards it. -/
  connectStatus : Nat
  /-- Errno behind `std::io::Error::last_os_error()`. -/
  lastOsError : Nat

/-- The closure `connect` passes to `find_map`: open a socket (status and
requested family/type do not influence the value), re-parse the candidate's
text (panicking on malformed tokens), call `sock_connect` and ignore its
status, and unconditionally return `Some(SocketHandle(fd))`. -/
def connectClosure (host : ConnectHost) (c : Candidate) : Outcome (Option TcpStream) :=
  match parseAddrText c.text with
  | none => Outcome.panic
  | some _ => Outcome.ok (some ⟨host.openFd⟩)

/-- `Iterator::find_map` with a panicking closure: stop at the first
candidate for which the closure yields `Some`, propagate a panic. -/
def findMapP {α β : Type} (f : α → Outcome (Option β)) : List α → Outcome (Option β)
  | [] => Outcome.ok none
  | a :: as =>
    match f a with
    | Outcome.panic => Outcome.panic
    | Outcome.err e => Outcome.err e
    | Outcome.ok (some b) => Outcome.ok (some b)
    | Outcome.ok none => findMapP f as

/-- `TcpStream::connect` over an already-resolved candidate list:
`find_map` the per-candidate closure; `Some(fd)` becomes
`Ok(TcpStream { fd })`, an exhausted iterator becomes
`Err(std::io::Error::last_os_error())`. -/
def TcpStream.connect (host : ConnectHost) (cands : List Candidate) : Outcome TcpStream :=
  match findMapP (connectClosure host) cands with
  | Outcome.panic => Outcome.panic
  | Outcome.err e => Outcome.err e
  | Outcome.ok (some s) => Outcome.ok s
  | Outcome.ok none => Outcome.err (IOError.lastOs host.lastOsError)

/-- Host behaviour for one `sock_recv` call. -/
structure RecvHost where
  /-- Return code of `sock_recv`; the source discards it. -/
  status : Nat
  /-- Value the host writes through the `recv_len` out-parameter. -/
  recvLen : Nat
  /-- Value the host writes through the `oflags` out-parameter (unused). -/
  oflags : Nat

/-- The `sock_recv` primitive call: returns its status code and writes
`recv_len` and `oflags` through out-parameters. -/
def sockRecvCall (h : RecvHost) : Nat × Nat × Nat :=
  (h.status, h.recvLen, h.oflags)

/-- `Read::read` for `TcpStream`: issue one `sock_recv` and return
`Ok(recv_len)`; the primitive's status code is dropped on the floor. -/
def TcpStream.read (s : TcpStream) (h : RecvHost) : Except IOError Nat :=
  Except.ok (sockRecvCall h).2.1

/-- Same `RecvHost` with the primitive's status code replaced. -/
def setRecvStatus (h : RecvHost) (c : Nat) : RecvHost :=
  ⟨c, h.recvLen, h.oflags⟩

/-- Observable host primitive invocations made by `TcpListener::bind`
(recorded in call order, as a host stub would see them). -/
inductive HostCall where
  | sockOpen (family ty : Nat)
  | sockBind (fd port : Nat)
  | sockListen (fd backlog : Nat)
  deriving DecidableEq

/-- Host behaviour for the primitive calls made while `bind` processes one
candidate. -/
structure BindHost where
  /-- fd written by `sock_open` through its out-parameter. -/
  openFd : Nat
  /-- Return code of `sock_bind`; the source discards it. -/
  bindStatus : Nat
  /-- Return code of `sock_listen`; the source discards it. -/
  listenStatus : Nat
  /-- Errno behind `std::io::Error::last_os_error()`. -/
  lastOsError : Nat

/-- The closure `bind` passes to `find_map`: open a socket, re-parse the
candidate's text (panicking on malformed tokens), call
`sock_bind(fd, addr, port)` then `sock_listen(fd, 128)` ignoring both
statuses, and return `Some((SocketHandle(fd), addr, port))`.  The second
component also records the primitive call trace
`[sock_open, sock_bind, sock_listen]` in invocation order. -/
def bindClosure (host : BindHost) (c : Candidate) :
    Outcome (Option (TcpListener × List HostCall)) :=
  match parseAddrText c.text with
  | none => Outcome.panic
  | some vp =>
    Outcome.ok (some (⟨host.openFd, vp.1, vp.2⟩,
      [HostCall.sockOpen c.family 1, HostCall.sockBind host.openFd vp.2,
       HostCall.sockListen host.openFd 128]))

/-- `TcpListener::bind` over an already-resolved candidate list, with the
recorded call trace of the winning candidate alongside the listener. -/
def TcpListener.bind (host : BindHost) (cands : List Candidate) :
    Outcome (TcpListener × List HostCall) :=
  match findMapP (bindClosure host) cands with
  | Outcome.panic => Outcome.panic
  | Outcome.err e => Outcome.err e
  | Outcome.ok (some r) => Outcome.ok r
  | Outcome.ok none => Outcome.err (IOError.lastOs host.lastOsError)

/-- Host behaviour for one `accept` call: the `sock_accept` primitive plus
the `sock_getpeeraddr` call that `peer_addr` makes on the new stream. -/
structure AcceptHost where
  /-- Return code of `sock_accept`; the source discards it. -/
  acceptStatus : Nat
  /-- fd written by `sock_accept` through its out-parameter. -/
  acceptedFd : Nat
  /-- Host behaviour for the follow-up `sock_getpeeraddr` call. -/
  peer : PeerHost

/-- Same `AcceptHost` with the accept primitive's status code replaced. -/
def setAcceptStatus (h : AcceptHost) (s : Nat) : AcceptHost :=
  ⟨s, h.acceptedFd, h.peer⟩

/-- `TcpListener::accept`: call `sock_accept` (status discarded), wrap the
fd out-parameter in a `TcpStream` unconditionally, then query its peer
address; the `?` on `peer_addr` is the only failure path. -/
def TcpListener.accept (l : TcpListener) (h : AcceptHost) :
    Except IOError (TcpStream × SockAddrV4) :=
  match TcpStream.peer_addr ⟨h.acceptedFd⟩ h.peer with
  | Except.error e => Except.error e
  | Except.ok a => Except.ok (⟨h.acceptedFd⟩, a)

/-- `TcpListener::incoming`: borrow the listener into a cursor. -/
def TcpListener.incoming (l : TcpListener) : Incoming := ⟨l⟩

/-- `Iterator::next` for `Incoming`: always
`Some(self.listener.accept().map(|s| s.0))` — never `None`. -/
def Incoming.next (inc : Incoming) (h : AcceptHost) :
    Option (Except IOError TcpStream) :=
  some ((TcpListener.accept inc.listener h).map Prod.fst)

/-- Requesting `n` items from the `incoming()` cursor, the host behaving as
`hosts k` on the `k`-th step; each slot records the raw `Option` an
iterator step produced. -/
def incomingTakeN (inc : Incoming) (hosts : Nat → AcceptHost) :
    Nat → List (Option (Except IOError TcpStream))
  | 0 => []
  | n + 1 => incomingTakeN inc hosts n ++ [Incoming.next inc (hosts n)]

/-- Host behaviour for one `sock_recv_from` call. -/
structure RecvFromHost where
  /-- Numeric return value (status code) of `sock_recv_from`. -/
  retCode : Nat
  /-- Contents of the 32-byte sender-address scratch buffer after the
  call (indexed byte view). -/
  addrBytes : Nat → Nat
  /-- Value the host writes through the `addr_len` out-parameter; the
  source never reads it back. -/
  addrLenOut : Nat

/-- The sender-address bytes `recv_from` hands to the textual parser: the
first `retCode` bytes of the scratch buffer (`&mut addr_buf[..size]`). -/
def recvFromAddrBytes (h : RecvFromHost) : List Nat :=
  (List.range h.retCode).map h.addrBytes

/-- Same `RecvFromHost` with the `addr_len` out-parameter value replaced. -/
def setAddrLenOut (h : RecvFromHost) (x : Nat) : RecvFromHost :=
  ⟨h.retCode, h.addrBytes, x⟩

/-- `UdpSocket::recv_from`: take the primitive's return value as the byte
count, slice the 32-byte scratch buffer to that many leading bytes
(panicking if the slice is out of range), build a `CString` (panicking on
an interior NUL), and parse the text as a socket address (panicking on
malformed input).  `parseSA` is the external
`String::from_utf8` + `str::parse::<SocketAddr>` composite, treated as an
oracle since it lives in the Rust standard library; `none` models its
`expect` panic. -/
def UdpSocket.recv_from {σ : Type} (u : UdpSocket)
    (parseSA : List Nat → Option σ) (h : RecvFromHost) : Outcome (Nat × σ) :=
  if h.retCode ≤ 32 then
    if (recvFromAddrBytes h).contains 0 then Outcome.panic
    else
      match parseSA (recvFromAddrBytes h) with
      | none => Outcome.panic
      | some a => Outcome.ok (h.retCode, a)
  else Outcome.panic

/-- `UdpSocket::bind`: the body is `todo!()`, an unconditional abort. -/
def UdpSocket.bind (addrs : List Candidate) : Outcome UdpSocket :=
  Outcome.panic

/-! Concrete hosts, candidates and sockets used by witnesses and
counterexamples. -/

/-- Concrete connect host: `sock_open` writes fd 7, `sock_connect` returns
nonzero status 9, errno is 13. -/
def cHost : ConnectHost := ⟨7, 9, 13⟩

/-- Concrete bind host: `sock_open` writes fd 9, errno is 21. -/
def bHost : BindHost := ⟨9, 0, 0, 21⟩

/-- The textual form of an IPv6 candidate, `"[::1]:80"`, whose first
`':'`-group `"["` fails the `u8` octet parse. -/
def badCandidate : Candidate :=
  ⟨1, ['[', ':', ':', '1', ']', ':', '8', '0']⟩

/-- Concrete stream used when exercising per-stream operations. -/
def stA : TcpStream := ⟨5⟩

/-- Peer host writing IPv6 family tag 6. -/
def ph6 : PeerHost := ⟨0, fun j => j, 6, 80⟩

/-- Peer host writing IPv4 family tag 4 and buffer bytes 127.0.0.1. -/
def ph4 : PeerHost := ⟨0, fun j => [127, 0, 0, 1].getD j 0, 4, 80⟩

/-- Concrete listener for accept/incoming witnesses. -/
def wListener : TcpListener := ⟨3, [127, 0, 0, 1], 9000⟩

/-- Accept host whose accept primitive reports nonzero status 1 while the
peer query succeeds with family tag 4. -/
def aHost4 : AcceptHost := ⟨1, 5, ph4⟩

/-- Accept host whose peer query reports family tag 6. -/
def aHost6 : AcceptHost := ⟨0, 5, ph6⟩

/-- Step-indexed accept hosts: step 0 succeeds, every later step fails the
peer-address family gate. -/
def wHosts : Nat → AcceptHost :=
  fun k => ⟨k, k + 10, ⟨0, fun j => j, if k = 0 then 4 else 6, 80⟩⟩

/-- Recv host reporting nonzero status 5 while writing `recv_len` 7. -/
def rHost : RecvHost := ⟨5, 7, 0⟩

/-- Concrete UDP socket. -/
def uSock : UdpSocket := ⟨11⟩

/-- Concrete stand-in for the library `SocketAddr` parser: accepts exactly
the byte list `[49]`. -/
def pSA : List Nat → Option Nat :=
  fun bs => if bs = [49] then some 7 else none

/-- Recv-from host whose primitive returns 1 and writes byte 49. -/
def rfHost : RecvFromHost := ⟨1, fun _ => 49, 3⟩

/-- Recv-from host whose primitive returns success status 0. -/
def rfHost0 : RecvFromHost := ⟨0, fun _ => 49, 3⟩

/-! Helper lemmas about decimal rendering and parsing. -/

theorem digitCh_isDigit : ∀ m, m < 10 → isDigitCh (digitCh m) := by decide

theorem parseDigit_digitCh : ∀ m, m < 10 → parseDigit (digitCh m) = some m := by decide

theorem isDigitCh_ne_colon {c : Char} (h : isDigitCh c) : c ≠ ':' := by
  intro hEq
  subst hEq
  revert h
  decide

theorem isDigitCh_ne_dot {c : Char} (h : isDigitCh c) : c ≠ '.' := by
  intro hEq
  subst hEq
  revert h
  decide

theorem isDigitCh_ne_plus {c : Char} (h : isDigitCh c) : c ≠ '+' := by
  intro hEq
  subst hEq
  revert h
  decide

theorem renderNatAux_digits :
    ∀ fuel n acc, (∀ c ∈ acc, isDigitCh c) → ∀ c ∈ renderNatAux fuel n acc, isDigitCh c := by
  intro fuel
  induction fuel with
  | zero => intro n acc hacc c hc; exact hacc c hc
  | succ f ih =>
    intro n acc hacc c hc
    simp only [renderNatAux] at hc
    by_cases h10 : n < 10
    · rw [if_pos h10] at hc
      rcases List.mem_cons.mp hc with h | h
      · subst h; exact digitCh_isDigit n h10
      · exact hacc c h
    · rw [if_neg h10] at hc
      refine ih (n / 10) (digitCh (n % 10) :: acc) ?_ c hc
      intro x hx
      rcases List.mem_cons.mp hx with h | h
      · subst h; exact digitCh_isDigit (n % 10) (Nat.mod_lt n (by norm_num))
      · exact hacc x h

theorem renderNat_digits (n : Nat) : ∀ c ∈ renderNat n, isDigitCh c :=
  renderNatAux_digits (n + 1) n [] (by intro c hc; exact absurd hc (List.not_mem_nil c))

theorem renderNat_ne_colon (n : Nat) : ∀ c ∈ renderNat n, c ≠ ':' :=
  fun c hc => isDigitCh_ne_colon (renderNat_digits n c hc)

theorem renderNat_ne_dot (n : Nat) : ∀ c ∈ renderNat n, c ≠ '.' :=
  fun c hc => isDigitCh_ne_dot (renderNat_digits n c hc)

theorem renderNatAux_succ_ne_nil :
    ∀ fuel n acc, renderNatAux (fuel + 1) n acc ≠ [] := by
  intro fuel
  induction fuel with
  | zero =>
    intro n acc h
    simp only [renderNatAux] at h
    by_cases h10 : n < 10
    · rw [if_pos h10] at h; simp at h
    · rw [if_neg h10] at h; simp at h
  | succ f ih =>
    intro n acc h
    rw [show f + 1 + 1 = (f + 1) + 1 from rfl] at h
    simp only [renderNatAux] at h
    by_cases h10 : n < 10
    · rw [if_pos h10] at h; simp at h
    · rw [if_neg h10] at h
      exact ih (n / 10) (digitCh (n % 10) :: acc) h

theorem renderNat_ne_nil (n : Nat) : renderNat n ≠ [] :=
  renderNatAux_succ_ne_nil n n []

theorem parseNatCore_renderNatAux :
    ∀ fuel n, n < 10 ^ fuel → ∀ acc v,
      parseNatCore (renderNatAux fuel n acc) v
        = parseNatCore acc (v * 10 ^ numDigitsAux fuel n + n) := by
  intro fuel
  induction fuel with
  | zero =>
    intro n hn acc v
    have hn0 : n = 0 := Nat.lt_one_iff.mp (by simpa using hn)
    subst hn0
    simp [renderNatAux, numDigitsAux]
  | succ f ih =>
    intro n hn acc v
    by_cases h10 : n < 10
    · simp only [renderNatAux, if_pos h10, numDigitsAux]
      simp only [parseNatCore, parseDigit_digitCh n h10]
      norm_num
    · have hdiv : n / 10 < 10 ^ f := by
        rw [Nat.div_lt_iff_lt_mul (by norm_num : 0 < 10)]
        calc n < 10 ^ (f + 1) := hn
          _ = 10 ^ f * 10 := by rw [Nat.pow_succ]
      simp only [renderNatAux, if_neg h10, numDigitsAux]
      rw [ih (n / 10) hdiv (digitCh (n % 10) :: acc) v]
      simp only [parseNatCore, parseDigit_digitCh (n % 10) (Nat.mod_lt n (by norm_num))]
      congr 1
      have key : ∀ M : Nat, (M + n / 10) * 10 + n % 10 = M * 10 + n := by
        intro M; omega
      calc (v * 10 ^ numDigitsAux f (n / 10) + n / 10) * 10 + n % 10
          = v * 10 ^ numDigitsAux f (n / 10) * 10 + n := key _
        _ = v * 10 ^ (numDigitsAux f (n / 10) + 1) + n := by
            rw [Nat.pow_succ, Nat.mul_assoc]

theorem parseNatText_renderNat (n : Nat) : parseNatText (renderNat n) = some n := by
  have hcore : parseNatCore (renderNat n) 0 = some n := by
    have hlt : n < 10 ^ (n + 1) := by
      calc n < 2 ^ n := Nat.lt_two_pow n
        _ ≤ 10 ^ n := Nat.pow_le_pow_left (by norm_num) n
        _ ≤ 10 ^ (n + 1) := Nat.pow_le_pow_right (by norm_num) (Nat.le_succ n)
    unfold renderNat
    rw [parseNatCore_renderNatAux (n + 1) n hlt [] 0]
    simp [parseNatCore]
  cases hrn : renderNat n with
  | nil => exact absurd hrn (renderNat_ne_nil n)
  | cons c cs =>
    have hcdig : isDigitCh c :=
      renderNat_digits n c (by rw [hrn]; exact List.mem_cons_self c cs)
    have hplus : c ≠ '+' := isDigitCh_ne_plus hcdig
    have hstrip : stripPlus (c :: cs) = c :: cs := by
      show (if c = '+' then cs else c :: cs) = c :: cs
      rw [if_neg hplus]
    have hstep : parseNatText (c :: cs) = parseNatCore (c :: cs) 0 := by
      unfold parseNatText
      rw [hstrip]
    rw [hstep, ← hrn]
    exact hcore

theorem parseU8_renderNat (n : Nat) (h : n ≤ 255) : parseU8 (renderNat n) = some n := by
  unfold parseU8
  rw [parseNatText_renderNat n]
  exact if_pos h

theorem parseU16_renderNat (n : Nat) (h : n ≤ 65535) : parseU16 (renderNat n) = some n := by
  unfold parseU16
  rw [parseNatText_renderNat n]
  exact if_pos h

/-! Helper lemmas about character-level splitting. -/

theorem splitOnChar_sepFree (sep : Char) (xs : List Char)
    (h : ∀ c ∈ xs, c ≠ sep) : splitOnChar sep xs = [xs] := by
  induction xs with
  | nil => rfl
  | cons c cs ih =>
    have hc : c ≠ sep := h c (List.mem_cons_self c cs)
    have ih2 := ih (fun x hx => h x (List.mem_cons_of_mem c hx))
    simp only [splitOnChar, if_neg hc, ih2, consHead]

theorem splitOnChar_append (sep : Char) (xs ys : List Char)
    (h : ∀ c ∈ xs, c ≠ sep) :
    splitOnChar sep (xs ++ sep :: ys) = xs :: splitOnChar sep ys := by
  induction xs with
  | nil => simp [splitOnChar]
  | cons c cs ih =>
    have hc : c ≠ sep := h c (List.mem_cons_self c cs)
    have ih2 := ih (fun x hx => h x (List.mem_cons_of_mem c hx))
    have hstep : splitOnChar sep (c :: (cs ++ sep :: ys))
        = consHead c (splitOnChar sep (cs ++ sep :: ys)) := by
      simp only [splitOnChar, if_neg hc]
    calc splitOnChar sep ((c :: cs) ++ sep :: ys)
        = consHead c (splitOnChar sep (cs ++ sep :: ys)) := hstep
      _ = consHead c (cs :: splitOnChar sep ys) := by rw [ih2]
      _ = (c :: cs) :: splitOnChar sep ys := rfl

theorem ipToChars_mem (ip : Ipv4) : ∀ c ∈ Ipv4.toChars ip, isDigitCh c ∨ c = '.' := by
  intro c hc
  unfold Ipv4.toChars at hc
  rcases List.mem_append.mp hc with h | h
  · exact Or.inl (renderNat_digits ip.a c h)
  · rcases List.mem_cons.mp h with h | h
    · exact Or.inr h
    · rcases List.mem_append.mp h with h | h
      · exact Or.inl (renderNat_digits ip.b c h)
      · rcases List.mem_cons.mp h with h | h
        · exact Or.inr h
        · rcases List.mem_append.mp h with h | h
          · exact Or.inl (renderNat_digits ip.c c h)
          · rcases List.mem_cons.mp h with h | h
            · exact Or.inr h
            · exact Or.inl (renderNat_digits ip.d c h)

theorem ipToChars_ne_colon (ip : Ipv4) : ∀ c ∈ Ipv4.toChars ip, c ≠ ':' := by
  intro c hc
  rcases ipToChars_mem ip c hc with h | h
  · exact isDigitCh_ne_colon h
  · rw [h]; decide

/-! Helper lemmas about the address-text decomposition. -/

theorem parseAddrText_toChars (a b c d p : Nat)
    (ha : a ≤ 255) (hb : b ≤ 255) (hc : c ≤ 255) (hd : d ≤ 255) (hp : p ≤ 65535) :
    parseAddrText (SockAddrV4.toChars ⟨⟨a, b, c, d⟩, p⟩) = some ([a, b, c, d], p) := by
  have htc : Ipv4.toChars ⟨a, b, c, d⟩
      = renderNat a ++ ('.' :: (renderNat b ++ ('.' :: (renderNat c ++ ('.' :: renderNat d))))) :=
    rfl
  have hts : SockAddrV4.toChars ⟨⟨a, b, c, d⟩, p⟩
      = Ipv4.toChars ⟨a, b, c, d⟩ ++ (':' :: renderNat p) := rfl
  have hsplit1 : splitOnChar ':' (SockAddrV4.toChars ⟨⟨a, b, c, d⟩, p⟩)
      = [Ipv4.toChars ⟨a, b, c, d⟩, renderNat p] := by
    rw [hts, splitOnChar_append ':' _ _ (ipToChars_ne_colon ⟨a, b, c, d⟩),
        splitOnChar_sepFree ':' _ (renderNat_ne_colon p)]
  have hsplit2 : splitOnChar '.' (Ipv4.toChars ⟨a, b, c, d⟩)
      = [renderNat a, renderNat b, renderNat c, renderNat d] := by
    rw [htc, splitOnChar_append '.' _ _ (renderNat_ne_dot a),
        splitOnChar_append '.' _ _ (renderNat_ne_dot b),
        splitOnChar_append '.' _ _ (renderNat_ne_dot c),
        splitOnChar_sepFree '.' _ (renderNat_ne_dot d)]
  have hmap : mapUnwrapU8 [renderNat a, renderNat b, renderNat c, renderNat d]
      = some [a, b, c, d] := by
    simp only [mapUnwrapU8, parseU8_renderNat a ha, parseU8_renderNat b hb,
      parseU8_renderNat c hc, parseU8_renderNat d hd]
  unfold parseAddrText
  rw [hsplit1]
  show (mapUnwrapU8 (splitOnChar '.' (Ipv4.toChars ⟨a, b, c, d⟩))).bind
      (fun vaddr => (parseU16 (renderNat p)).map (fun port => (vaddr, port)))
    = some ([a, b, c, d], p)
  rw [hsplit2, hmap]
  show (parseU16 (renderNat p)).map (fun port => ([a, b, c, d], port)) = some ([a, b, c, d], p)
  rw [parseU16_renderNat p hp]
  rfl

theorem mapUnwrapU8_none (tok : List Char) (ts : List (List Char))
    (htok : tok ∈ ts) (hnone : parseU8 tok = none) : mapUnwrapU8 ts = none := by
  induction ts with
  | nil => exact absurd htok (List.not_mem_nil tok)
  | cons t ts ih =>
    rcases List.mem_cons.mp htok with h | h
    · subst h
      simp only [mapUnwrapU8, hnone]
    · simp only [mapUnwrapU8]
      cases hp8 : parseU8 t with
      | none => rfl
      | some v => rw [ih h]

theorem parseAddrText_none_of_fail (text : List Char) (a0 a1 : List Char)
    (rest : List (List Char))
    (hsplit : splitOnChar ':' text = a0 :: a1 :: rest)
    (hfail : (∃ tok, tok ∈ splitOnChar '.' a0 ∧ parseU8 tok = none) ∨ parseU16 a1 = none) :
    parseAddrText text = none := by
  unfold parseAddrText
  rw [hsplit]
  show (mapUnwrapU8 (splitOnChar '.' a0)).bind
      (fun vaddr => (parseU16 a1).map (fun port => (vaddr, port))) = none
  rcases hfail with ⟨tok, htok, hnone⟩ | hnone
  · rw [mapUnwrapU8_none tok _ htok hnone]
    rfl
  · cases hmu : mapUnwrapU8 (splitOnChar '.' a0) with
    | none => rfl
    | some vs =>
      show (parseU16 a1).map (fun port => (vs, port)) = none
      rw [hnone]
      rfl

/-! Helper lemmas about list indexing and the incoming cursor. -/

theorem list_getq_append_left {α : Type} (l l2 : List α) :
    ∀ i, i < l.length → (l ++ l2).get? i = l.get? i := by
  induction l with
  | nil => intro i hi; exact absurd hi (Nat.not_lt_zero i)
  | cons x xs ih =>
    intro i hi
    cases i with
    | zero => rfl
    | succ j => exact ih j (Nat.lt_of_succ_lt_succ hi)

theorem list_getq_concat {α : Type} (l : List α) (x : α) :
    (l ++ [x]).get? l.length = some x := by
  induction l with
  | nil => rfl
  | cons y ys ih => exact ih

theorem incomingTakeN_length (inc : Incoming) (hosts : Nat → AcceptHost) :
    ∀ n, (incomingTakeN inc hosts n).length = n := by
  intro n
  induction n with
  | zero => rfl
  | succ k ih => simp [incomingTakeN, ih]

/-! Claim theorems. -/

/-- C1: for every candidate address list accepted by `TcpStream::connect`,
if the resolved list is non-empty then `connect` returns `Ok` with a
stream holding the handle `sock_open` produced for the first candidate
processed, regardless of the status code returned by the connect
primitive (the host `host` is arbitrary, so `host.connectStatus` is
arbitrary, and no candidate is ever skipped on failure: the tail `cs`
does not influence the result); if the resolved list is empty, `connect`
returns the last OS error sourced from the most recent failed primitive
call. -/
theorem tcp_connect_first_or_error (host : ConnectHost) :
    (∀ sa : SockAddrV4, ∀ cs : List Candidate, sa.valid →
       TcpStream.connect host (Candidate.ofV4 sa :: cs) = Outcome.ok ⟨host.openFd⟩)
    ∧ TcpStream.connect host [] = Outcome.err (IOError.lastOs host.lastOsError) := by
  constructor
  · intro sa cs hv
    obtain ⟨⟨a, b, c, d⟩, p⟩ := sa
    obtain ⟨ha, hb, hc, hd, hp⟩ := hv
    have hparse := parseAddrText_toChars a b c d p ha hb hc hd hp
    have h1 : connectClosure host (Candidate.ofV4 ⟨⟨a, b, c, d⟩, p⟩)
        = Outcome.ok (some ⟨host.openFd⟩) := by
      unfold connectClosure Candidate.ofV4
      rw [hparse]
    have h2 : findMapP (connectClosure host) (Candidate.ofV4 ⟨⟨a, b, c, d⟩, p⟩ :: cs)
        = Outcome.ok (some ⟨host.openFd⟩) := by
      unfold findMapP
      rw [h1]
    unfold TcpStream.connect
    rw [h2]
  · rfl

/-- C1 witness: a concrete connect host (`sock_open` fd 7, nonzero connect
status 9, errno 13) and the single candidate `127.0.0.1:80`. -/
theorem connect_first_witness :
    TcpStream.connect cHost [Candidate.ofV4 ⟨⟨127, 0, 0, 1⟩, 80⟩] = Outcome.ok ⟨7⟩
    ∧ TcpStream.connect cHost [] = Outcome.err (IOError.lastOs 13) :=
  ⟨(tcp_connect_first_or_error cHost).1 ⟨⟨127, 0, 0, 1⟩, 80⟩ []
      ⟨by decide, by decide, by decide, by decide, by decide⟩,
   (tcp_connect_first_or_error cHost).2⟩

/-- C2 counterexample: a host whose accept primitive reports nonzero
status 1 while the follow-up peer query reports family tag 4; the call
still constructs and returns a `TcpStream` (wrapping the fd
out-parameter 5), so a nonzero accept status does not make the call fail. -/
theorem accept_nonzero_status_cex :
    aHost4.acceptStatus ≠ 0
    ∧ TcpListener.accept wListener aHost4
        = Except.ok (⟨5⟩, ⟨⟨127, 0, 0, 1⟩, 80⟩) :=
  ⟨by decide, rfl⟩

/-- C2 (amended): `TcpListener::accept` ignores the accept primitive's
status code entirely: the result is the same for every status value, a
`TcpStream` wrapping the fd out-parameter is constructed unconditionally,
and the call fails only when the subsequent peer-address query reports a
family tag other than 4. -/
theorem accept_ignores_status (l : TcpListener) (h : AcceptHost) :
    (∀ s, TcpListener.accept l (setAcceptStatus h s) = TcpListener.accept l h)
    ∧ (h.peer.addrType = 4 →
        TcpListener.accept l h = Except.ok (⟨h.acceptedFd⟩,
          ⟨⟨h.peer.wbuf 0, h.peer.wbuf 1, h.peer.wbuf 2, h.peer.wbuf 3⟩, h.peer.port % 65536⟩))
    ∧ (h.peer.addrType ≠ 4 →
        TcpListener.accept l h = Except.error IOError.unsupportedAddressType) := by
  refine ⟨fun s => rfl, ?_, ?_⟩
  · intro h4
    unfold TcpListener.accept TcpStream.peer_addr raw_to_address
    rw [h4]
    simp
  · intro h4
    unfold TcpListener.accept TcpStream.peer_addr raw_to_address
    rw [if_pos h4]

/-- C2 witness: the amended theorem applied at concrete hosts with family
tag 4 (nonzero accept status) and family tag 6. -/
theorem accept_status_witness :
    TcpListener.accept wListener aHost4 = Except.ok (⟨5⟩, ⟨⟨127, 0, 0, 1⟩, 80⟩)
    ∧ TcpListener.accept wListener aHost6 = Except.error IOError.unsupportedAddressType :=
  ⟨(accept_ignores_status wListener aHost4).2.1 rfl,
   (accept_ignores_status wListener aHost6).2.2 (by decide)⟩

/-- C3 counterexample: a host whose receive primitive reports nonzero
status 5 and writes `recv_len` 7; `read` still returns `Ok(7)` instead of
failing with a localized I/O error. -/
theorem read_nonzero_status_cex :
    rHost.status ≠ 0 ∧ TcpStream.read stA rHost = Except.ok 7 :=
  ⟨by decide, rfl⟩

/-- C3 (amended): `TcpStream::read` always returns `Ok` with the byte
count the host wrote through the `recv_len` out-parameter; the receive
primitive's status code is discarded, so the result is the same for every
status value and a nonzero status is never mapped to an error. -/
theorem read_returns_recv_len (s : TcpStream) (h : RecvHost) (c : Nat) :
    TcpStream.read s h = Except.ok h.recvLen
    ∧ TcpStream.read s (setRecvStatus h c) = TcpStream.read s h :=
  ⟨rfl, rfl⟩

/-- C4: `TcpStream::peer_addr` fails with the "unsupported address type"
error exactly when the family tag the host writes back differs from the
IPv4 sentinel 4 (in particular for the IPv6 sentinel 6), and for tag 4 it
returns the structured IPv4 address built from the first 4 buffer bytes
together with the returned port (truncated `u32 → u16`). -/
theorem peer_addr_family_gate (s : TcpStream) (h : PeerHost) :
    (TcpStream.peer_addr s h = Except.error IOError.unsupportedAddressType ↔ h.addrType ≠ 4)
    ∧ (h.addrType = 4 →
        TcpStream.peer_addr s h
          = Except.ok ⟨⟨h.wbuf 0, h.wbuf 1, h.wbuf 2, h.wbuf 3⟩, h.port % 65536⟩) := by
  unfold TcpStream.peer_addr raw_to_address
  by_cases h4 : h.addrType = 4
  · rw [h4]
    simp
  · rw [if_pos h4]
    simp [h4]

/-- C4 witness: the theorem applied at a host writing IPv6 tag 6 (failure)
and at a host writing IPv4 tag 4 with buffer bytes 127.0.0.1 (success). -/
theorem peer_addr_witness :
    TcpStream.peer_addr stA ph6 = Except.error IOError.unsupportedAddressType
    ∧ TcpStream.peer_addr stA ph4 = Except.ok ⟨⟨127, 0, 0, 1⟩, 80⟩ :=
  ⟨(peer_addr_family_gate stA ph6).1.mpr (by decide),
   (peer_addr_family_gate stA ph4).2 rfl⟩

/-- C5: for every valid IPv4 address and port, serializing to the raw
4-octet buffer form exactly as `connect`/`bind` do (render to text, split
on `':'` and `'.'`, parse each octet) and then reconstructing a structured
address from those 4 bytes with the IPv4 sentinel family tag 4 and the
same port (as `peer_addr` readback does) yields the original address and
port: round-trip identity for the IPv4 family. -/
theorem ipv4_raw_roundtrip (a b c d p : Nat)
    (ha : a ≤ 255) (hb : b ≤ 255) (hc : c ≤ 255) (hd : d ≤ 255) (hp : p ≤ 65535) :
    parseAddrText (SockAddrV4.toChars ⟨⟨a, b, c, d⟩, p⟩) = some ([a, b, c, d], p)
    ∧ raw_to_address [a, b, c, d] 4 p = Except.ok ⟨⟨a, b, c, d⟩, p⟩ := by
  refine ⟨parseAddrText_toChars a b c d p ha hb hc hd hp, ?_⟩
  unfold raw_to_address
  rw [if_neg (by decide : ¬ (4 : Nat) ≠ 4)]
  have hmod : p % 65536 = p := Nat.mod_eq_of_lt (by omega)
  rw [hmod]
  rfl

/-- C5 witness: the round trip at 127.0.0.1:8080. -/
theorem ipv4_roundtrip_witness :
    parseAddrText (SockAddrV4.toChars ⟨⟨127, 0, 0, 1⟩, 8080⟩) = some ([127, 0, 0, 1], 8080)
    ∧ raw_to_address [127, 0, 0, 1] 4 8080 = Except.ok ⟨⟨127, 0, 0, 1⟩, 8080⟩ :=
  ipv4_raw_roundtrip 127 0 0 1 8080 (by decide) (by decide) (by decide) (by decide) (by decide)

/-- C6: requesting `n` items from the `incoming()` cursor yields exactly
`n` results: each step returns `Some` of the accept result with the
stream mapped out of the `(Stream, Address)` pair and the address
discarded, never fewer results and never a natural end-of-sequence
(`none`) slot, even when a step's accept result is an error. -/
theorem incoming_yields_forever (inc : Incoming) (hosts : Nat → AcceptHost) (n : Nat) :
    (incomingTakeN inc hosts n).length = n
    ∧ ∀ i, i < n → (incomingTakeN inc hosts n).get? i
        = some (some ((TcpListener.accept inc.listener (hosts i)).map Prod.fst)) := by
  refine ⟨incomingTakeN_length inc hosts n, ?_⟩
  induction n with
  | zero => intro i hi; exact absurd hi (Nat.not_lt_zero i)
  | succ k ih =>
    intro i hi
    rcases Nat.lt_succ_iff_lt_or_eq.mp hi with hlt | heq
    · have hlen : i < (incomingTakeN inc hosts k).length := by
        rw [incomingTakeN_length]
        exact hlt
      calc (incomingTakeN inc hosts (k + 1)).get? i
          = (incomingTakeN inc hosts k).get? i := by
            simp only [incomingTakeN]
            exact list_getq_append_left _ _ i hlen
        _ = some (some ((TcpListener.accept inc.listener (hosts i)).map Prod.fst)) :=
            ih i hlt
    · subst heq
      have hconcat := list_getq_concat (incomingTakeN inc hosts i)
        (Incoming.next inc (hosts i))
      rw [incomingTakeN_length] at hconcat
      simp only [incomingTakeN]
      rw [hconcat]
      rfl

/-- C6 witness: two steps against step-indexed hosts whose second step
fails the peer-address gate; both slots are still `some`. -/
theorem incoming_witness :
    (incomingTakeN ⟨wListener⟩ wHosts 2).length = 2
    ∧ (incomingTakeN ⟨wListener⟩ wHosts 2).get? 1
        = some (some ((TcpListener.accept wListener (wHosts 1)).map Prod.fst)) :=
  ⟨(incoming_yields_forever ⟨wListener⟩ wHosts 2).1,
   (incoming_yields_forever ⟨wListener⟩ wHosts 2).2 1 (by decide)⟩

/-- C7: the byte count `UdpSocket::recv_from` returns is the numeric
return value (status code) of `sock_recv_from` itself, and the sender
address is parsed from exactly that many leading bytes of the 32-byte
scratch buffer; the `addr_len` out-parameter the host writes never
influences the result, and a host signalling success with status 0 makes
the parsed address input the empty byte string. -/
theorem recv_from_size_is_status {σ : Type} (u : UdpSocket)
    (parseSA : List Nat → Option σ) (h : RecvFromHost) :
    (∀ n a, UdpSocket.recv_from u parseSA h = Outcome.ok (n, a) →
       n = h.retCode ∧ parseSA (recvFromAddrBytes h) = some a)
    ∧ (h.retCode = 0 → recvFromAddrBytes h = [])
    ∧ (∀ x, UdpSocket.recv_from u parseSA (setAddrLenOut h x)
        = UdpSocket.recv_from u parseSA h) := by
  refine ⟨?_, ?_, fun x => rfl⟩
  · intro n a heq
    unfold UdpSocket.recv_from at heq
    by_cases h32 : h.retCode ≤ 32
    · rw [if_pos h32] at heq
      by_cases hz : (recvFromAddrBytes h).contains 0
      · rw [if_pos hz] at heq
        exact Outcome.noConfusion heq
      · rw [if_neg hz] at heq
        cases hps : parseSA (recvFromAddrBytes h) with
        | none =>
          rw [hps] at heq
          exact Outcome.noConfusion heq
        | some a2 =>
          rw [hps] at heq
          injection heq with h1
          rw [Prod.mk.injEq] at h1
          exact ⟨h1.1.symm, by rw [h1.2]⟩
    · rw [if_neg h32] at heq
      exact Outcome.noConfusion heq
  · intro h0
    unfold recvFromAddrBytes
    rw [h0]
    rfl

/-- C7 witness: the theorem applied at a host returning status 1 with
buffer byte 49 (parsed by the concrete parser `pSA`), and at a host
returning status 0 whose address input is therefore empty. -/
theorem recv_from_witness :
    (1 = rfHost.retCode ∧ pSA (recvFromAddrBytes rfHost) = some 7)
    ∧ recvFromAddrBytes rfHost0 = [] :=
  ⟨(recv_from_size_is_status uSock pSA rfHost).1 1 7 (by decide),
   (recv_from_size_is_status uSock pSA rfHost0).2.1 rfl⟩

/-- C8: for every successful `TcpListener::bind` on a candidate, the
recorded host-call trace is exactly `sock_open`, then `sock_bind` on the
opened handle, then `sock_listen` on the same handle with the fixed
backlog 128 — so the listen invocation happens immediately after the bind
invocation on the same handle. -/
theorem bind_then_listen_128 (host : BindHost) (c : Candidate) (cs : List Candidate)
    (vaddr : List Nat) (port : Nat)
    (hparse : parseAddrText c.text = some (vaddr, port)) :
    TcpListener.bind host (c :: cs)
      = Outcome.ok (⟨host.openFd, vaddr, port⟩,
          [HostCall.sockOpen c.family 1, HostCall.sockBind host.openFd port,
           HostCall.sockListen host.openFd 128])
    ∧ ∃ pre post, ([HostCall.sockOpen c.family 1, HostCall.sockBind host.openFd port,
           HostCall.sockListen host.openFd 128] : List HostCall)
        = pre ++ HostCall.sockBind host.openFd port
            :: HostCall.sockListen host.openFd 128 :: post := by
  constructor
  · have h1 : bindClosure host c
        = Outcome.ok (some (⟨host.openFd, vaddr, port⟩,
            [HostCall.sockOpen c.family 1, HostCall.sockBind host.openFd port,
             HostCall.sockListen host.openFd 128])) := by
      unfold bindClosure
      rw [hparse]
    have h2 : findMapP (bindClosure host) (c :: cs)
        = Outcome.ok (some (⟨host.openFd, vaddr, port⟩,
            [HostCall.sockOpen c.family 1, HostCall.sockBind host.openFd port,
             HostCall.sockListen host.openFd 128])) := by
      unfold findMapP
      rw [h1]
    unfold TcpListener.bind
    rw [h2]
  · exact ⟨[HostCall.sockOpen c.family 1], [], rfl⟩

/-- C8 witness: the theorem applied to the candidate `127.0.0.1:80` and a
concrete bind host opening fd 9. -/
theorem bind_listen_witness :
    TcpListener.bind bHost [Candidate.ofV4 ⟨⟨127, 0, 0, 1⟩, 80⟩]
      = Outcome.ok (⟨9, [127, 0, 0, 1], 80⟩,
          [HostCall.sockOpen 0 1, HostCall.sockBind 9 80, HostCall.sockListen 9 128]) :=
  (bind_then_listen_128 bHost (Candidate.ofV4 ⟨⟨127, 0, 0, 1⟩, 80⟩) []
    [127, 0, 0, 1] 80 (by decide)).1

/-- C9: during the textual address decomposition shared by
`TcpStream::connect` and `TcpListener::bind` (splitting the candidate's
string form on `':'` and `'.'`), any octet token that fails the `u8`
parse or port token that fails the `u16` parse makes the whole
connect/bind attempt panic: the result is `Outcome.panic`, not a
recoverable error and not a skip to the remaining candidates `cs`. -/
theorem parse_failure_aborts (chost : ConnectHost) (bhost : BindHost)
    (c : Candidate) (cs : List Candidate) (a0 a1 : List Char) (rest : List (List Char))
    (hsplit : splitOnChar ':' c.text = a0 :: a1 :: rest)
    (hfail : (∃ tok, tok ∈ splitOnChar '.' a0 ∧ parseU8 tok = none) ∨ parseU16 a1 = none) :
    TcpStream.connect chost (c :: cs) = Outcome.panic
    ∧ TcpListener.bind bhost (c :: cs) = Outcome.panic := by
  have hp := parseAddrText_none_of_fail c.text a0 a1 rest hsplit hfail
  constructor
  · have h1 : connectClosure chost c = Outcome.panic := by
      unfold connectClosure
      rw [hp]
    have h2 : findMapP (connectClosure chost) (c :: cs) = Outcome.panic := by
      unfold findMapP
      rw [h1]
    unfold TcpStream.connect
    rw [h2]
  · have h1 : bindClosure bhost c = Outcome.panic := by
      unfold bindClosure
      rw [hp]
    have h2 : findMapP (bindClosure bhost) (c :: cs) = Outcome.panic := by
      unfold findMapP
      rw [h1]
    unfold TcpListener.bind
    rw [h2]

/-- C9 witness: the IPv6 candidate text `[::1]:80`, whose first
`':'`-group `"["` fails the octet parse, makes both `connect` and `bind`
panic. -/
theorem parse_failure_witness :
    TcpStream.connect cHost [badCandidate] = Outcome.panic
    ∧ TcpListener.bind bHost [badCandidate] = Outcome.panic :=
  parse_failure_aborts cHost bHost badCandidate [] ['['] ([] : List Char)
    [['1', ']'], ['8', '0']] (by decide)
    (Or.inl ⟨['['], by decide, by decide⟩)

/-- C10: for every input address argument, `UdpSocket::bind` is an
unconditional fatal abort (`todo!()`): the outcome is `panic`, which by
constructor disjointness is neither an `ok` socket value nor an `err`
recoverable error. -/
theorem udp_bind_always_aborts (addrs : List Candidate) :
    UdpSocket.bind addrs = Outcome.panic ∧ (UdpSocket.bind addrs).isPanic = true :=
  ⟨rfl, rfl⟩

end WasmSocket
